import Mathlib

/-!
A shallow embedding of `gpytorch/lazy/chol_lazy_tensor.py` and
`gpytorch/means/constant_mean.py`, with theorems about construction-time
validation, caching, aliasing, scoped configuration and the constant mean.

Scalars are modelled as rationals extended with an IEEE-style NaN element
(`F.nan`): NaN propagates through arithmetic and max reductions, compares
false under order comparisons, and is not equal to itself. Dense 2-D tensors
are lists of rows. In-place tensor operations (`triu_`, index assignment)
and object aliasing (`diagonal` views versus `clone`d buffers) are modelled
with a small explicit store of matrices and vectors addressed by references.
-/

attribute [local semireducible] Rat.mul Rat.add

/-- A floating-point-like scalar: a rational value, or a NaN-like element
that fails self-equality and propagates through arithmetic and max. -/
inductive F where
  | nan : F
  | val : ℚ → F
deriving DecidableEq

/-- IEEE-style multiplication: NaN propagates (including `NaN * 0 = NaN`). -/
def F.mul : F → F → F
  | F.nan, _ => F.nan
  | _, F.nan => F.nan
  | F.val a, F.val b => F.val (a * b)

/-- IEEE-style addition: NaN propagates. -/
def F.add : F → F → F
  | F.nan, _ => F.nan
  | _, F.nan => F.nan
  | F.val a, F.val b => F.val (a + b)

/-- Strict greater-than: any comparison involving NaN is false. -/
def F.gt : F → F → Bool
  | F.val a, F.val b => decide (b < a)
  | _, _ => false

/-- Binary max as used by the `torch.max` reduction: NaN propagates. -/
def F.fmax : F → F → F
  | F.nan, _ => F.nan
  | _, F.nan => F.nan
  | F.val a, F.val b => F.val (max a b)

/-- Element equality as used by `torch.equal`: NaN is not equal to anything,
itself included. -/
def F.feq : F → F → Bool
  | F.val a, F.val b => decide (a = b)
  | _, _ => false

/-- Absolute value (magnitude); NaN propagates. -/
def F.abs : F → F
  | F.nan => F.nan
  | F.val a => F.val |a|

/-- A dense 2-D tensor value: a list of rows. -/
abbrev Tensor : Type := List (List F)

/-- `torch.ones((r, c))`. -/
def ones (r c : Nat) : Tensor :=
  List.replicate r (List.replicate c (F.val 1))

/-- Zero out the first `k` entries of a row (used by `triu_(1)` on row `i`,
which zeroes the entries in columns `0 .. i`). -/
def zeroFirstK : Nat → List F → List F
  | 0, l => l
  | _, [] => []
  | n + 1, _ :: xs => F.val 0 :: zeroFirstK n xs

/-- Row-indexed worker for `triu1`: row `i` keeps only columns `j ≥ i + 1`. -/
def triuAux : Nat → Tensor → Tensor
  | _, [] => []
  | i, row :: rest => zeroFirstK (i + 1) row :: triuAux (i + 1) rest

/-- `t.triu_(1)` as a value transformation: keep the strictly
upper-triangular part, zero everything on and below the main diagonal. -/
def triu1 (t : Tensor) : Tensor := triuAux 0 t

/-- Element-wise product `a.mul(b)` of two equally-shaped tensors. -/
def tmul (a b : Tensor) : Tensor :=
  List.zipWith (List.zipWith F.mul) a b

/-- Element-wise absolute value of a tensor. -/
def tabs (t : Tensor) : Tensor := t.map (List.map F.abs)

/-- The `torch.max` full reduction: none on an empty tensor (where the real
operation errors), otherwise the `F.fmax`-fold of all entries, so a NaN
anywhere makes the result NaN. -/
def tmax (t : Tensor) : Option F :=
  match t.flatten with
  | [] => none
  | x :: xs => some (xs.foldl F.fmax x)

/-- Row equality for `torch.equal`: same length and element-wise `F.feq`. -/
def rowEqual (a b : List F) : Bool :=
  a.length == b.length && (List.zip a b).all (fun p => F.feq p.1 p.2)

/-- `torch.equal(a, b)`: same shape and same elements, with NaN never equal
to itself. -/
def torchEqual (a b : Tensor) : Bool :=
  a.length == b.length && (List.zip a b).all (fun p => rowEqual p.1 p.2)

/-- Entry `t[i][j]`, defaulting to `0` out of range. -/
def getA {α : Type} : List α → Nat → α → α
  | [], _, d => d
  | x :: _, 0, _ => x
  | _ :: xs, n + 1, d => getA xs n d

/-- Write index `n` of a list; out-of-range writes are no-ops. -/
def setA {α : Type} : List α → Nat → α → List α
  | [], _, _ => []
  | _ :: xs, 0, v => v :: xs
  | x :: xs, n + 1, v => x :: setA xs n v

/-- Entry `t[i][j]` of a tensor value. -/
def tGet (t : Tensor) (i j : Nat) : F := getA (getA t i []) j (F.val 0)

/-- The main diagonal of the trailing two dimensions,
`t.diagonal(dim1=-2, dim2=-1)` as a value. -/
def diagOf (t : Tensor) : List F :=
  (List.range (min t.length (t.headD []).length)).map (fun i => tGet t i i)

/-- The fixed triangularity tolerance `1e-3` of the constructor check
(the rational `1/1000`, written with `mkRat` so that it evaluates). -/
def tol : F := F.val (mkRat 1 1000)

/-- The comparison `torch.max(...).item() > 1e-3` applied to a `tmax`
result; an empty tensor yields no comparison. -/
def exceedsTol (o : Option F) : Bool :=
  match o with
  | some m => F.gt m tol
  | none => false

/-- A heap of tensor objects: matrices and vectors addressed by index, plus
a counter instrumented into the materialization (`evaluate`) path. -/
structure Store where
  mats : List Tensor
  vecs : List (List F)
  evalCount : Nat
deriving DecidableEq

/-- Read the matrix at reference `r`. -/
def Store.readMat (st : Store) (r : Nat) : Tensor := getA st.mats r []

/-- Overwrite the matrix at reference `r` in place. -/
def Store.writeMat (st : Store) (r : Nat) (t : Tensor) : Store :=
  { st with mats := setA st.mats r t }

/-- Allocate a fresh matrix object, returning its reference. -/
def Store.allocMat (st : Store) (t : Tensor) : Nat × Store :=
  (st.mats.length, { st with mats := st.mats ++ [t] })

/-- Allocate a fresh vector buffer, returning its reference. -/
def Store.allocVec (st : Store) (v : List F) : Nat × Store :=
  (st.vecs.length, { st with vecs := st.vecs ++ [v] })

/-- A vector object: either a diagonal view into a stored matrix (sharing
its storage, as `Tensor.diagonal` returns a view) or an owned buffer
(as produced by `clone`). -/
inductive VecObj where
  | diagView : Nat → VecObj
  | cell : Nat → VecObj
deriving DecidableEq

/-- The current value of a vector object. -/
def Store.readVec (st : Store) (v : VecObj) : List F :=
  match v with
  | VecObj.diagView m => diagOf (st.readMat m)
  | VecObj.cell i => getA st.vecs i []

/-- Write the `i`-th diagonal entry of a matrix value. -/
def setDiagEntry (t : Tensor) (i : Nat) (x : F) : Tensor :=
  setA t i (setA (getA t i []) i x)

/-- In-place mutation of one entry of a vector object. Writing through a
diagonal view mutates the viewed matrix; writing to an owned buffer
mutates only that buffer. -/
def Store.writeVecAt (st : Store) (v : VecObj) (idx : Nat) (x : F) : Store :=
  match v with
  | VecObj.diagView m => st.writeMat m (setDiagEntry (st.readMat m) idx x)
  | VecObj.cell i => { st with vecs := setA st.vecs i (setA (getA st.vecs i []) idx x) }

/-- `v.clone()`: allocate a fresh owned buffer holding the current value of
`v`, detached from any matrix storage. -/
def Store.cloneVec (st : Store) (v : VecObj) : VecObj × Store :=
  let a := st.allocVec (st.readVec v)
  (VecObj.cell a.1, a.2)

/-- The global `settings` module state: the `debug` feature flag queried at
construction and the `fast_computations.log_prob` flag scoped by
`inv_quad_logdet`. -/
structure GlobalSettings where
  debug : Bool
  fast_log_prob : Bool
deriving DecidableEq

/-- A `CholLazyTensor` instance: the reference to its root factor and the
two lazily populated memo attributes (`_chol_memo`, `_chol_diag_memo`),
absent (`none`) until first accessed. -/
structure CholLazyTensor where
  rootRef : Nat
  chol_memo : Option Nat
  chol_diag_memo : Option VecObj
deriving DecidableEq

/-- Modelled from the spec: the base `RootLazyTensor` constructor (its file
is not part of the excerpt) stores the supplied factor as the instance's
root; the memo caches are unpopulated at construction. -/
def CholLazyTensor.mkState (rootRef : Nat) : CholLazyTensor :=
  { rootRef := rootRef, chol_memo := none, chol_diag_memo := none }

/-- The error message raised by the constructor check (source spelling
preserved). -/
def cholErrMsg : String :=
  "CholLazyVaraiable should take a lower-triangular matrix in the constructor."

/-- `CholLazyTensor.__init__`. The input is taken already materialized as a
dense matrix held in the store at `cholRef` (the source first forces a lazy
input to dense via `evaluate()`, which lives outside the excerpt). When
`settings.debug` is on, a fresh all-ones mask matching the trailing two
dimensions is allocated and made strictly upper triangular in place by
`triu_(1)`; the guard
`torch.max(chol.mul(mask)).item() > 1e-3 and torch.equal(chol, chol)`
decides whether the `RuntimeError` is raised. Otherwise the base
constructor stores the factor as the root. -/
def CholLazyTensor.init (s : GlobalSettings) (st : Store) (cholRef : Nat) :
    Except String CholLazyTensor × Store :=
  let chol := st.readMat cholRef
  if s.debug then
    let am := st.allocMat (ones chol.length (chol.headD []).length)
    let maskRef := am.1
    let st1 := am.2
    let st2 := st1.writeMat maskRef (triu1 (st1.readMat maskRef))
    let mask := st2.readMat maskRef
    if exceedsTol (tmax (tmul chol mask)) && torchEqual chol chol then
      (Except.error cholErrMsg, st2)
    else
      (Except.ok (CholLazyTensor.mkState cholRef), st2)
  else
    (Except.ok (CholLazyTensor.mkState cholRef), st)

/-- `CholLazyTensor._cholesky`: returns `self.root` itself, performing no
factorization. -/
def CholLazyTensor._cholesky (self : CholLazyTensor) : Nat := self.rootRef

/-- `CholLazyTensor._chol`: on first access, materialize the root via
`self.root.evaluate()` (external to the excerpt: it returns the dense
tensor underlying the root, counted by `evalCount`) and memoize it in
`_chol_memo`; afterwards return the memo. -/
def CholLazyTensor._chol (self : CholLazyTensor) (st : Store) :
    Nat × CholLazyTensor × Store :=
  match self.chol_memo with
  | some m => (m, self, st)
  | none =>
    let st1 : Store := { st with evalCount := st.evalCount + 1 }
    (self.rootRef, { self with chol_memo := some self.rootRef }, st1)

/-- `CholLazyTensor._chol_diag`: on first access, take the diagonal view of
the cached factor, `clone()` it into an owned buffer and memoize that
buffer in `_chol_diag_memo`; afterwards return the memoized buffer
itself. -/
def CholLazyTensor._chol_diag (self : CholLazyTensor) (st : Store) :
    VecObj × CholLazyTensor × Store :=
  match self.chol_diag_memo with
  | some v => (v, self, st)
  | none =>
    let r1 := self._chol st
    let cv := (r1.2.2).cloneVec (VecObj.diagView r1.1)
    (cv.1, { r1.2.1 with chol_diag_memo := some cv.1 }, cv.2)

/-- Modelled from the spec: the `settings.fast_computations.log_prob(v)`
context manager (the settings module is not part of the excerpt). Per the
external-interface contract it snapshots the flag, sets it to `v` for the
duration of the body, and restores the prior value on every exit path,
whether the body returns normally or raises. Errors carry the state at
raise time so the body's other effects persist across the failure path. -/
def scoped_log_prob {α : Type} (v : Bool)
    (body : GlobalSettings → Except (String × GlobalSettings) (α × GlobalSettings))
    (s : GlobalSettings) : Except String α × GlobalSettings :=
  let prior := s.fast_log_prob
  match body { s with fast_log_prob := v } with
  | Except.ok r => (Except.ok r.1, { r.2 with fast_log_prob := prior })
  | Except.error e => (Except.error e.1, { e.2 with fast_log_prob := prior })

/-- `CholLazyTensor.inv_quad_logdet`: runs the inherited implementation
inside `with settings.fast_computations.log_prob(False)`. The inherited
implementation is a parameter because its file is outside the excerpt. -/
def CholLazyTensor.inv_quad_logdet {α : Type}
    (inherited : Option (List F) → Bool → Bool → GlobalSettings →
      Except (String × GlobalSettings) (α × GlobalSettings))
    (inv_quad_rhs : Option (List F)) (logdet : Bool) (reduce_inv_quad : Bool)
    (s : GlobalSettings) : Except String α × GlobalSettings :=
  scoped_log_prob false (inherited inv_quad_rhs logdet reduce_inv_quad) s

/-- Apply a scalar logarithm to a value; NaN propagates. -/
def F.applyLog (log : ℚ → ℚ) : F → F
  | F.nan => F.nan
  | F.val q => F.val (log q)

/-- Sum of a list of scalars; NaN propagates. -/
def sumF (l : List F) : F := l.foldl F.add (F.val 0)

/-- The exact-path log-determinant of `L · Lᵗ` for a triangular factor `L`:
`2 · Σ log(diag(L))`, with the scalar logarithm abstracted. -/
def exact_logdet (log : ℚ → ℚ) (L : Tensor) : F :=
  F.mul (F.val 2) (sumF ((diagOf L).map (F.applyLog log)))

/-- Modelled from the spec: the generic base-class `inv_quad_logdet` (its
file is not part of the excerpt). Per the spec it branches on the global
fast-computations flag: with the flag off it takes the exact Cholesky path,
whose log-determinant term is `2 · Σ log(diag(L))`; with the flag on it
uses a stochastic approximation, abstracted here as `approx`. The
quadratic-form term is abstracted as `quad`. -/
def base_inv_quad_logdet (log : ℚ → ℚ) (quad approx : F) (L : Tensor)
    (inv_quad_rhs : Option (List F)) (logdet : Bool) (reduce_inv_quad : Bool)
    (s : GlobalSettings) :
    Except (String × GlobalSettings) ((F × F) × GlobalSettings) :=
  Except.ok
    ((quad, if logdet then (if s.fast_log_prob then approx else exact_logdet log L)
      else F.val 0), s)

/-- Does the tensor contain a NaN-like entry? -/
def hasNaN (t : Tensor) : Bool :=
  t.any (fun row => row.any (fun x => x == F.nan))

/-- Every entry is self-equal (no NaN-like values), as worded by the spec. -/
def allSelfEqual (t : Tensor) : Bool :=
  t.all (fun row => row.all (fun x => F.feq x x))

/-- The masked strictly-upper-triangular product of `chol`, as computed by
the constructor: `chol.mul(ones(shape[-2:]).triu_(1))` followed by the max
reduction. -/
def maskedMax (chol : Tensor) : Option F :=
  tmax (tmul chol (triu1 (ones chol.length (chol.headD []).length)))

/-- The same reduction over magnitudes, which is what the claim's words
"maximum magnitude" describe. -/
def maskedAbsMax (chol : Tensor) : Option F :=
  tmax (tabs (tmul chol (triu1 (ones chol.length (chol.headD []).length))))

/-- Is the matrix strictly lower triangular (all entries above the main
diagonal exactly zero)? Row-indexed worker. -/
def lowerAux : Nat → Tensor → Bool
  | _, [] => true
  | i, row :: rest => (row.drop (i + 1)).all (fun x => x == F.val 0) && lowerAux (i + 1) rest

/-- Is the matrix lower triangular? -/
def isLowerTri (t : Tensor) : Bool := lowerAux 0 t

/-- An n-dimensional tensor for the mean component: a shape together with
an entry function on multi-indices. -/
structure NDTensor where
  shape : List Nat
  entry : List Nat → ℚ

/-- Broadcast a multi-index of the expanded tensor back to an index of the
original: align trailing dimensions and send size-1 dimensions to index 0. -/
def bcastIdx (tshape : List Nat) (idx : List Nat) : List Nat :=
  List.zipWith (fun s i => if s = 1 then 0 else i) tshape
    (idx.drop (idx.length - tshape.length))

/-- `t.expand(*sizes)`: a view with the given shape whose entries read
through to `t` under broadcasting. -/
def NDTensor.expand (t : NDTensor) (sizes : List Nat) : NDTensor :=
  { shape := sizes, entry := fun idx => t.entry (bcastIdx t.shape idx) }

/-- A `ConstantMean` module: its batch shape and its `constant` parameter of
shape `batch_shape ++ [1]` (zeros at registration). -/
structure ConstantMean where
  batch_shape : List Nat
  constant : NDTensor

/-- `ConstantMean.__init__` (prior registration omitted: it does not touch
`forward`): registers `constant = zeros(*batch_shape, 1)`. -/
def ConstantMean.mk' (batch_shape : List Nat) : ConstantMean :=
  { batch_shape := batch_shape,
    constant := { shape := batch_shape ++ [1], entry := fun _ => 0 } }

/-- `ConstantMean.forward`: `self.constant.expand(*input.shape[:-1])`. -/
def ConstantMean.forward (self : ConstantMean) (input : NDTensor) : NDTensor :=
  self.constant.expand input.shape.dropLast

/-! Concrete inputs used by witnesses and counterexamples. -/

/-- A well-formed lower-triangular 2×2 factor. -/
def cholW : Tensor := [[F.val 1, F.val 0], [F.val 2, F.val 3]]

/-- A store holding only `cholW`. -/
def stW : Store := { mats := [cholW], vecs := [], evalCount := 0 }

/-- A matrix with a positive strictly-upper-triangular entry above the
tolerance. -/
def cholUp : Tensor := [[F.val 0, F.val 1], [F.val 0, F.val 0]]

/-- A store holding only `cholUp`. -/
def stUp : Store := { mats := [cholUp], vecs := [], evalCount := 0 }

/-- A matrix whose only strictly-upper-triangular mass is negative: its
magnitude exceeds the tolerance but its signed value does not. -/
def cholNeg : Tensor := [[F.val 0, F.val (-1)], [F.val 0, F.val 0]]

/-- A store holding only `cholNeg`. -/
def stNeg : Store := { mats := [cholNeg], vecs := [], evalCount := 0 }

/-- A matrix with above-tolerance strictly-upper-triangular mass and a
NaN-like entry. -/
def cholNanUp : Tensor := [[F.val 0, F.val 1], [F.nan, F.val 0]]

/-- A store holding only `cholNanUp`. -/
def stNanUp : Store := { mats := [cholNanUp], vecs := [], evalCount := 0 }

/-- Settings with the debug flag enabled. -/
def sOn : GlobalSettings := { debug := true, fast_log_prob := true }

/-- Settings with the debug flag disabled. -/
def sOff : GlobalSettings := { debug := false, fast_log_prob := true }

/-- The first call to the cached-diagonal accessor on a fresh instance over
`stW`. -/
def diagCall1 : VecObj × CholLazyTensor × Store :=
  (CholLazyTensor.mkState 0)._chol_diag stW

/-- In-place mutation of the vector returned by the first accessor call. -/
def stMut : Store := (diagCall1.2.2).writeVecAt diagCall1.1 0 (F.val 99)

/-- The second call to the cached-diagonal accessor on the same instance,
after the mutation. -/
def diagCall2 : VecObj × CholLazyTensor × Store :=
  (diagCall1.2.1)._chol_diag stMut

/-! Helper lemmas about the store and list operations. -/

theorem getA_append_len {α : Type} (l : List α) (a d : α) :
    getA (l ++ [a]) l.length d = a := by
  induction l with
  | nil => rfl
  | cons x xs ih => simpa [getA] using ih

theorem setA_append_len {α : Type} (l : List α) (a v : α) :
    setA (l ++ [a]) l.length v = l ++ [v] := by
  induction l with
  | nil => rfl
  | cons x xs ih => simpa [setA] using ih

theorem getA_append_lt {α : Type} (l l' : List α) (r : Nat) (d : α)
    (h : r < l.length) : getA (l ++ l') r d = getA l r d := by
  induction l generalizing r with
  | nil => exact absurd h (Nat.not_lt_zero r)
  | cons x xs ih =>
    cases r with
    | zero => rfl
    | succ n => simpa [getA] using ih n (Nat.lt_of_succ_lt_succ h)

/-! Helper lemmas about self-equality and NaN. -/

theorem F.feq_self (x : F) : F.feq x x = !(x == F.nan) := by
  cases x <;> simp [F.feq]

theorem zip_self_all {α : Type} (p : α × α → Bool) (l : List α) :
    (List.zip l l).all p = l.all (fun x => p (x, x)) := by
  induction l with
  | nil => rfl
  | cons x xs ih => simp [List.zip_cons_cons, ih]

theorem rowEqual_self (r : List F) :
    rowEqual r r = r.all (fun x => F.feq x x) := by
  simp [rowEqual, zip_self_all]

theorem torchEqual_self (t : Tensor) : torchEqual t t = allSelfEqual t := by
  unfold torchEqual allSelfEqual
  simp only [beq_self_eq_true, Bool.true_and, zip_self_all]
  induction t with
  | nil => rfl
  | cons r rest ih => simp [rowEqual_self, ih]

theorem row_selfEqual (r : List F) :
    (r.all fun x => F.feq x x) = !(r.any fun x => x == F.nan) := by
  induction r with
  | nil => rfl
  | cons x xs ih =>
    simp only [List.all_cons, List.any_cons, Bool.not_or, ih]
    congr 1
    exact F.feq_self x

theorem allSelfEqual_eq_not_hasNaN (t : Tensor) :
    allSelfEqual t = !(hasNaN t) := by
  unfold allSelfEqual hasNaN
  induction t with
  | nil => rfl
  | cons r rest ih =>
    simp only [List.all_cons, List.any_cons, Bool.not_or, ih]
    congr 1
    exact row_selfEqual r

theorem torchEqual_self_of_hasNaN (t : Tensor) (h : hasNaN t = true) :
    torchEqual t t = false := by
  rw [torchEqual_self, allSelfEqual_eq_not_hasNaN, h]
  rfl

/-! Helper lemmas about the max reduction and the tolerance. -/

theorem gt_tol_fmax (a b : F) (ha : F.gt a tol = false) (hb : F.gt b tol = false) :
    F.gt (F.fmax a b) tol = false := by
  cases a with
  | nan => cases b <;> rfl
  | val qa =>
    cases b with
    | nan => rfl
    | val qb =>
      simp only [F.gt, tol, F.fmax, decide_eq_false_iff_not, not_lt] at *
      exact max_le ha hb

theorem foldl_fmax_gt_false (l : List F) : ∀ seed : F, F.gt seed tol = false →
    (∀ e ∈ l, F.gt e tol = false) → F.gt (l.foldl F.fmax seed) tol = false := by
  induction l with
  | nil => intro seed hs _; simpa using hs
  | cons x xs ih =>
    intro seed hs hmem
    simp only [List.foldl_cons]
    exact ih (F.fmax seed x) (gt_tol_fmax seed x hs (hmem x (List.mem_cons_self x xs)))
      (fun e he => hmem e (List.mem_cons_of_mem x he))

theorem masked_row_gt_false (row : List F) : ∀ (k c : Nat),
    (row.drop k).all (fun x => x == F.val 0) = true →
    ∀ e ∈ List.zipWith F.mul row (zeroFirstK k (List.replicate c (F.val 1))),
    F.gt e tol = false := by
  induction row with
  | nil => intro k c _ e he; simp [List.zipWith] at he
  | cons x xs ih =>
    intro k c h e he
    cases k with
    | zero =>
      cases c with
      | zero => simp [List.replicate, zeroFirstK] at he
      | succ c' =>
        rw [List.replicate_succ] at he
        simp only [zeroFirstK, List.zipWith_cons_cons, List.mem_cons] at he
        rcases he with he | he
        · simp only [List.drop_zero, List.all_cons, Bool.and_eq_true, beq_iff_eq] at h
          subst he
          rw [h.1]
          simp [F.mul, F.gt, tol]
        · simp only [List.drop_zero, List.all_cons, Bool.and_eq_true] at h
          exact ih 0 c' (by simpa using h.2) e (by simpa [zeroFirstK] using he)
    | succ k' =>
      cases c with
      | zero => simp [List.replicate, zeroFirstK] at he
      | succ c' =>
        rw [List.replicate_succ] at he
        simp only [zeroFirstK, List.zipWith_cons_cons, List.mem_cons] at he
        rcases he with he | he
        · subst he
          cases x with
          | nan => rfl
          | val q => simp [F.mul, F.gt, tol]
        · exact ih k' c' (by simpa [List.drop_succ_cons] using h) e he

theorem masked_mat_gt_false (t : Tensor) : ∀ (i r c : Nat), lowerAux i t = true →
    ∀ row ∈ List.zipWith (List.zipWith F.mul) t
      (triuAux i (List.replicate r (List.replicate c (F.val 1)))),
    ∀ e ∈ row, F.gt e tol = false := by
  induction t with
  | nil => intro i r c _ row hrow; simp [List.zipWith] at hrow
  | cons hd rest ih =>
    intro i r c h row hrow
    cases r with
    | zero => simp [List.replicate, triuAux] at hrow
    | succ r' =>
      rw [List.replicate_succ] at hrow
      simp only [triuAux, List.zipWith_cons_cons, List.mem_cons] at hrow
      simp only [lowerAux, Bool.and_eq_true] at h
      rcases hrow with hrow | hrow
      · subst hrow
        exact masked_row_gt_false hd (i + 1) c h.1
      · exact ih (i + 1) r' c h.2 row hrow

theorem exceedsTol_lowerTri_false (chol : Tensor) (r c : Nat)
    (h : isLowerTri chol = true) :
    exceedsTol (tmax (tmul chol (triu1 (ones r c)))) = false := by
  have hmem : ∀ e ∈ (tmul chol (triu1 (ones r c))).flatten, F.gt e tol = false := by
    intro e he
    rcases List.mem_flatten.mp he with ⟨row, hrow, hein⟩
    exact masked_mat_gt_false chol 0 r c h row hrow e hein
  unfold tmax
  cases hfl : (tmul chol (triu1 (ones r c))).flatten with
  | nil => rfl
  | cons x xs =>
    simp only [exceedsTol]
    exact foldl_fmax_gt_false xs x
      (hmem x (hfl ▸ List.mem_cons_self x xs))
      (fun e he => hmem e (hfl ▸ List.mem_cons_of_mem x he))

/-! Characterizations of the constructor on the two debug settings. -/

theorem init_nodebug (s : GlobalSettings) (st : Store) (r : Nat)
    (h : s.debug = false) :
    CholLazyTensor.init s st r = (Except.ok (CholLazyTensor.mkState r), st) := by
  unfold CholLazyTensor.init
  rw [h]
  simp

theorem init_debug_fst (s : GlobalSettings) (st : Store) (r : Nat)
    (h : s.debug = true) :
    (CholLazyTensor.init s st r).1 =
      if exceedsTol (maskedMax (st.readMat r)) &&
          torchEqual (st.readMat r) (st.readMat r)
        then Except.error cholErrMsg
        else Except.ok (CholLazyTensor.mkState r) := by
  unfold CholLazyTensor.init maskedMax
  rw [h]
  simp only [if_true, Store.allocMat, Store.writeMat, Store.readMat,
    getA_append_len, setA_append_len]
  split <;> rfl

theorem init_debug_snd (s : GlobalSettings) (st : Store) (r : Nat)
    (h : s.debug = true) :
    (CholLazyTensor.init s st r).2 =
      { st with mats := st.mats ++
          [triu1 (ones (st.readMat r).length ((st.readMat r).headD []).length)] } := by
  unfold CholLazyTensor.init
  rw [h]
  simp only [if_true, Store.allocMat, Store.writeMat, Store.readMat,
    getA_append_len, setA_append_len]
  split <;> rfl

/-! Claim theorems. -/

/-- C1 counterexample: `cholNeg` has a strictly-upper-triangular entry of
magnitude `1 > 1e-3` (so the masked product's maximum magnitude exceeds the
tolerance) and contains no NaN-like value, yet debug-mode construction
succeeds, because the code compares the signed maximum of the masked
product — which is `0` here — against the tolerance, not the maximum
magnitude. -/
theorem C1_counterexample :
    exceedsTol (maskedAbsMax (stNeg.readMat 0)) = true ∧
    allSelfEqual (stNeg.readMat 0) = true ∧
    (CholLazyTensor.init sOn stNeg 0).1 = Except.ok (CholLazyTensor.mkState 0) := by
  refine ⟨by decide, by decide, rfl⟩

/-- C1 (amended): with the debug flag enabled, construction fails with the
lower-triangularity error if and only if the maximum signed value (not the
maximum magnitude) of the element-wise product of `chol` with the
strictly-upper-triangular mask exceeds the tolerance `1e-3` and `chol`
contains no values that fail self-equality. -/
theorem C1_init_error_iff (s : GlobalSettings) (st : Store) (r : Nat)
    (h : s.debug = true) :
    (CholLazyTensor.init s st r).1 = Except.error cholErrMsg ↔
      (exceedsTol (maskedMax (st.readMat r)) = true ∧
        allSelfEqual (st.readMat r) = true) := by
  rw [init_debug_fst s st r h, torchEqual_self]
  by_cases hc : (exceedsTol (maskedMax (st.readMat r)) &&
      allSelfEqual (st.readMat r)) = true
  · rw [if_pos hc]
    rw [Bool.and_eq_true] at hc
    simp [hc.1, hc.2]
  · rw [if_neg hc]
    rw [Bool.and_eq_true] at hc
    constructor
    · intro he
      exact absurd he (by simp)
    · intro hcond
      exact absurd (And.intro hcond.1 hcond.2) hc

/-- C1 witness: the amended equivalence instantiated at a concrete
debug-enabled construction over a matrix with positive upper-triangular
mass. -/
theorem C1_init_error_iff_witness :
    (CholLazyTensor.init sOn stUp 0).1 = Except.error cholErrMsg ↔
      (exceedsTol (maskedMax (stUp.readMat 0)) = true ∧
        allSelfEqual (stUp.readMat 0) = true) :=
  C1_init_error_iff sOn stUp 0 rfl

/-- C3: if `chol` has a strictly-upper-triangular entry of magnitude above
the tolerance and also contains a NaN-like entry, debug-mode construction
succeeds without raising: `torch.equal(chol, chol)` is false, so the
validation silently passes. -/
theorem C3_nan_masks_validation (s : GlobalSettings) (st : Store) (r : Nat)
    (hdbg : s.debug = true)
    (hmass : ∃ i j, i < j ∧ F.gt (F.abs (tGet (st.readMat r) i j)) tol = true)
    (hnan : hasNaN (st.readMat r) = true) :
    (CholLazyTensor.init s st r).1 = Except.ok (CholLazyTensor.mkState r) := by
  rw [init_debug_fst s st r hdbg, torchEqual_self, allSelfEqual_eq_not_hasNaN, hnan]
  simp

/-- C3 witness: a matrix with upper-triangular entry `1` and a NaN-like
entry passes debug-mode validation. -/
theorem C3_nan_masks_validation_witness :
    (CholLazyTensor.init sOn stNanUp 0).1 = Except.ok (CholLazyTensor.mkState 0) :=
  C3_nan_masks_validation sOn stNanUp 0 rfl ⟨0, 1, by decide, by decide⟩ (by decide)

/-- C7: with the debug flag disabled, construction succeeds for every
matrix (including ones with above-tolerance upper-triangular mass) and
raises nothing; the store is untouched. -/
theorem C7_nodebug_ok (s : GlobalSettings) (st : Store) (r : Nat)
    (h : s.debug = false) :
    CholLazyTensor.init s st r = (Except.ok (CholLazyTensor.mkState r), st) :=
  init_nodebug s st r h

/-- C7 witness: non-debug construction succeeds on the matrix whose
upper-triangular entry `1` would fail debug-mode validation. -/
theorem C7_nodebug_ok_witness :
    CholLazyTensor.init sOff stUp 0 = (Except.ok (CholLazyTensor.mkState 0), stUp) :=
  C7_nodebug_ok sOff stUp 0 rfl

/-- C9: construction never mutates the caller-supplied factor: the masked
product is computed out of place (only the freshly allocated mask is
mutated by `triu_(1)`), so the matrix at `r` reads back unchanged, and the
vector heap is untouched. -/
theorem C9_init_preserves_chol (s : GlobalSettings) (st : Store) (r : Nat)
    (hr : r < st.mats.length) :
    ((CholLazyTensor.init s st r).2).readMat r = st.readMat r ∧
    ((CholLazyTensor.init s st r).2).vecs = st.vecs := by
  cases hdbg : s.debug with
  | false =>
    rw [init_nodebug s st r hdbg]
    exact ⟨rfl, rfl⟩
  | true =>
    rw [init_debug_snd s st r hdbg]
    exact ⟨getA_append_lt st.mats _ r [] hr, rfl⟩

/-- C9 witness: debug-mode construction on the violating matrix `cholUp`
leaves the stored factor unchanged. -/
theorem C9_init_preserves_chol_witness :
    ((CholLazyTensor.init sOn stUp 0).2).readMat 0 = stUp.readMat 0 ∧
    ((CholLazyTensor.init sOn stUp 0).2).vecs = stUp.vecs :=
  C9_init_preserves_chol sOn stUp 0 (by decide)

/-- C5: constructing from a lower-triangular factor succeeds under either
debug setting, `_cholesky` returns the instance's own root (no
factorization is performed), and the root it designates still reads back
structurally equal to the supplied factor. -/
theorem C5_cholesky_returns_root (s : GlobalSettings) (st : Store) (r : Nat)
    (hL : isLowerTri (st.readMat r) = true) (hr : r < st.mats.length) :
    (CholLazyTensor.init s st r).1 = Except.ok (CholLazyTensor.mkState r) ∧
    (CholLazyTensor.mkState r)._cholesky = (CholLazyTensor.mkState r).rootRef ∧
    ((CholLazyTensor.init s st r).2).readMat ((CholLazyTensor.mkState r)._cholesky)
      = st.readMat r := by
  cases hdbg : s.debug with
  | false =>
    rw [init_nodebug s st r hdbg]
    exact ⟨rfl, rfl, rfl⟩
  | true =>
    have h1 : exceedsTol (maskedMax (st.readMat r)) = false := by
      unfold maskedMax
      exact exceedsTol_lowerTri_false _ _ _ hL
    refine ⟨?_, rfl, ?_⟩
    · rw [init_debug_fst s st r hdbg, h1]
      simp
    · rw [init_debug_snd s st r hdbg]
      simp only [CholLazyTensor._cholesky, CholLazyTensor.mkState, Store.readMat]
      exact getA_append_lt st.mats _ r [] hr

/-- C5 witness: the identity short-circuit instantiated on the concrete
lower-triangular factor `cholW` with debug validation enabled. -/
theorem C5_cholesky_returns_root_witness :
    (CholLazyTensor.init sOn stW 0).1 = Except.ok (CholLazyTensor.mkState 0) ∧
    (CholLazyTensor.mkState 0)._cholesky = (CholLazyTensor.mkState 0).rootRef ∧
    ((CholLazyTensor.init sOn stW 0).2).readMat ((CholLazyTensor.mkState 0)._cholesky)
      = stW.readMat 0 :=
  C5_cholesky_returns_root sOn stW 0 (by decide) (by decide)

/-- C6: on an instance whose factor cache is unpopulated, two successive
calls to the cached-factor accessor return the identical object, the
materialization counter fires exactly once (on the first call), and the
second call changes neither the instance nor the store. -/
theorem C6_chol_memoized (c : CholLazyTensor) (st : Store)
    (h : c.chol_memo = none) :
    ((c._chol st).2.1._chol (c._chol st).2.2).1 = (c._chol st).1 ∧
    ((c._chol st).2.2).evalCount = st.evalCount + 1 ∧
    ((c._chol st).2.1._chol (c._chol st).2.2).2.2 = (c._chol st).2.2 ∧
    ((c._chol st).2.1._chol (c._chol st).2.2).2.1 = (c._chol st).2.1 := by
  simp [CholLazyTensor._chol, h]

/-- C6 witness: the memoization property instantiated on a freshly
constructed instance over `stW`. -/
theorem C6_chol_memoized_witness :
    (((CholLazyTensor.mkState 0)._chol stW).2.1._chol
        ((CholLazyTensor.mkState 0)._chol stW).2.2).1
      = ((CholLazyTensor.mkState 0)._chol stW).1 ∧
    (((CholLazyTensor.mkState 0)._chol stW).2.2).evalCount = stW.evalCount + 1 ∧
    (((CholLazyTensor.mkState 0)._chol stW).2.1._chol
        ((CholLazyTensor.mkState 0)._chol stW).2.2).2.2
      = ((CholLazyTensor.mkState 0)._chol stW).2.2 ∧
    (((CholLazyTensor.mkState 0)._chol stW).2.1._chol
        ((CholLazyTensor.mkState 0)._chol stW).2.2).2.1
      = ((CholLazyTensor.mkState 0)._chol stW).2.1 :=
  C6_chol_memoized (CholLazyTensor.mkState 0) stW rfl

/-- Shape of the first cached-diagonal access on a freshly constructed
instance: the factor memo aliases the root, the diagonal is cloned into a
fresh owned buffer, and that buffer itself becomes the memo and the
returned object. -/
theorem chol_diag_fresh (st : Store) (r : Nat) :
    (CholLazyTensor.mkState r)._chol_diag st =
      (VecObj.cell st.vecs.length,
       { rootRef := r, chol_memo := some r,
         chol_diag_memo := some (VecObj.cell st.vecs.length) },
       { mats := st.mats, vecs := st.vecs ++ [diagOf (st.readMat r)],
         evalCount := st.evalCount + 1 }) := by
  simp [CholLazyTensor._chol_diag, CholLazyTensor._chol, CholLazyTensor.mkState,
    Store.cloneVec, Store.allocVec, Store.readVec, Store.readMat]

/-- C4 counterexample: over `stW` (factor `[[1, 0], [2, 3]]`), the first
cached-diagonal access returns the vector `[1, 3]`; after an in-place write
of `99` into position `0` of the returned vector, a subsequent call to the
same accessor on the same instance returns `[99, 3]` — the mutation is
visible through the accessor, because the memoized buffer and the returned
vector are the same object. -/
theorem C4_counterexample :
    (diagCall1.2.2).readVec diagCall1.1 = [F.val 1, F.val 3] ∧
    (diagCall2.2.2).readVec diagCall2.1 = [F.val 99, F.val 3] ∧
    (diagCall2.2.2).readVec diagCall2.1 ≠ (diagCall1.2.2).readVec diagCall1.1 := by
  refine ⟨by decide, by decide, by decide⟩

/-- C4 (amended): the cached-diagonal accessor returns a vector element-wise
equal to the main diagonal of the cached factor; the returned vector is the
memoized buffer itself, so a subsequent call to the same accessor returns
the very same object (through which in-place mutation stays visible), while
the `clone()` taken when the cache is populated guarantees that in-place
mutation of the returned vector never modifies any matrix — in particular
not the cached factor. -/
theorem C4_diag_clone_aliasing (st : Store) (r idx : Nat) (x : F) :
    ((CholLazyTensor.mkState r)._chol_diag st).2.2.readVec
        ((CholLazyTensor.mkState r)._chol_diag st).1 = diagOf (st.readMat r) ∧
    ((((CholLazyTensor.mkState r)._chol_diag st).2.2.writeVecAt
        ((CholLazyTensor.mkState r)._chol_diag st).1 idx x).mats
      = (((CholLazyTensor.mkState r)._chol_diag st).2.2).mats) ∧
    ((((CholLazyTensor.mkState r)._chol_diag st).2.1)._chol_diag
        ((((CholLazyTensor.mkState r)._chol_diag st).2.2).writeVecAt
          ((CholLazyTensor.mkState r)._chol_diag st).1 idx x)).1
      = ((CholLazyTensor.mkState r)._chol_diag st).1 := by
  rw [chol_diag_fresh st r]
  refine ⟨?_, ?_, ?_⟩
  · simp [Store.readVec, getA_append_len]
  · simp [Store.writeVecAt]
  · simp [CholLazyTensor._chol_diag]

/-- C4 witness for the amended statement: instantiated over `stW` with the
write of `99` into position `0`. -/
theorem C4_diag_clone_aliasing_witness :
    ((CholLazyTensor.mkState 0)._chol_diag stW).2.2.readVec
        ((CholLazyTensor.mkState 0)._chol_diag stW).1 = diagOf (stW.readMat 0) ∧
    ((((CholLazyTensor.mkState 0)._chol_diag stW).2.2.writeVecAt
        ((CholLazyTensor.mkState 0)._chol_diag stW).1 0 (F.val 99)).mats
      = (((CholLazyTensor.mkState 0)._chol_diag stW).2.2).mats) ∧
    ((((CholLazyTensor.mkState 0)._chol_diag stW).2.1)._chol_diag
        ((((CholLazyTensor.mkState 0)._chol_diag stW).2.2).writeVecAt
          ((CholLazyTensor.mkState 0)._chol_diag stW).1 0 (F.val 99))).1
      = ((CholLazyTensor.mkState 0)._chol_diag stW).1 :=
  C4_diag_clone_aliasing stW 0 0 (F.val 99)

/-- C2: `inv_quad_logdet` restores the `fast_computations.log_prob` flag to
its pre-call value on return, whatever the inherited computation — also
when it raises (the error branch of the scoped override). -/
theorem C2_flag_restored {α : Type}
    (inherited : Option (List F) → Bool → Bool → GlobalSettings →
      Except (String × GlobalSettings) (α × GlobalSettings))
    (rhs : Option (List F)) (logdet reduce : Bool) (s : GlobalSettings) :
    ((CholLazyTensor.inv_quad_logdet inherited rhs logdet reduce s).2).fast_log_prob
      = s.fast_log_prob := by
  unfold CholLazyTensor.inv_quad_logdet scoped_log_prob
  cases inherited rhs logdet reduce { s with fast_log_prob := false } <;> rfl

/-- C8: with the log-determinant flag set, `inv_quad_logdet` over the
generic base implementation yields the exact-path log-determinant
`2 · Σ log(diag(L))` no matter how the global approximate-computation flag
is set at call time: the scoped override forces the exact branch. -/
theorem C8_logdet_exact (log : ℚ → ℚ) (quad approx : F) (L : Tensor)
    (rhs : Option (List F)) (reduce : Bool) (s : GlobalSettings)
    (hdiag : ∀ x ∈ diagOf L, ∃ q : ℚ, x = F.val q ∧ 0 < q) :
    (CholLazyTensor.inv_quad_logdet (base_inv_quad_logdet log quad approx L)
        rhs true reduce s).1
      = Except.ok (quad, exact_logdet log L) := by
  unfold CholLazyTensor.inv_quad_logdet scoped_log_prob base_inv_quad_logdet
  simp

/-- C8 witness: the exact-mode override honored on the concrete factor
`cholW` with the global approximate flag turned on. -/
theorem C8_logdet_exact_witness :
    (CholLazyTensor.inv_quad_logdet
        (base_inv_quad_logdet id (F.val 0) (F.val 99) cholW) none true true sOn).1
      = Except.ok (F.val 0, exact_logdet id cholW) :=
  C8_logdet_exact id (F.val 0) (F.val 99) cholW none true sOn (by
    intro x hx
    have hd : diagOf cholW = [F.val 1, F.val 3] := by decide
    rw [hd] at hx
    simp only [List.mem_cons, List.not_mem_nil, or_false] at hx
    rcases hx with rfl | rfl
    · exact ⟨1, rfl, by norm_num⟩
    · exact ⟨3, rfl, by norm_num⟩)

/-- C10: `ConstantMean.forward` depends only on the input's shape (its
leading dimensions) and the stored constant: two inputs of equal shape give
equal outputs whatever their values. -/
theorem C10_forward_shape_only (m : ConstantMean) (i1 i2 : NDTensor)
    (h : i1.shape = i2.shape) :
    ConstantMean.forward m i1 = ConstantMean.forward m i2 := by
  unfold ConstantMean.forward
  rw [h]

/-- C10 witness: two same-shaped inputs with different entries (a constant
field versus an index-dependent field) produce the same forward output. -/
theorem C10_forward_shape_only_witness :
    ConstantMean.forward (ConstantMean.mk' [1])
        { shape := [2, 3], entry := fun _ => 5 }
      = ConstantMean.forward (ConstantMean.mk' [1])
        { shape := [2, 3], entry := fun idx => (idx.sum : ℚ) } :=
  C10_forward_shape_only (ConstantMean.mk' [1]) _ _ rfl
